import Mathlib

/-
Verification development for the Telegram watcher bot (src/bot.py,
class TelegramMonitorBot).

The Python source is embedded shallowly:

* A Telegram `Message` becomes the structure `Msg`.  Optional string-like
  fields keep Python truthiness: `None` and `""` are falsy (`pyTruthy`).
  `message.photo` is the list of photo-size file ids (the code sends
  `photo[-1].file_id`); `video`/`document` hold the file id when the
  object is present.
* Python `str.strip()` / `str.lower()` / substring `in` are embedded as
  the executable functions `trimStr`, `lowerStr`, `containsSub` over the
  character list underlying a `String` (ASCII case folding, which covers
  every keyword the code compares).
* The async control flow is embedded as a small-step semantics.  The
  handler body of `handle_media_group` runs synchronously (no `await`)
  from its entry down to `asyncio.sleep(0.5)`; that synchronous segment
  is the `Event.arrive` step.  A sleeping waiter resuming after its
  delay and running lines 96-137 down to the first `await` inside the
  dispatch loop is the `Event.wake` step.  Each further resumption of
  the dispatch loop of `process_media_group` (one notification send per
  suspension, then the final `del`) is an `Event.progress` step.  A
  trace is an arbitrary interleaving of these atomic segments, which is
  exactly what the single-threaded cooperative scheduler can produce.
* The transport boundary (`bot.send_*`) is an oracle `fail : Send → Bool`
  saying which send calls raise; the `try/except` blocks of the source
  catch the exception and record the outcome, so each send attempt is
  modelled as a `Send × Bool` (attempt, success) pair.
* Bookkeeping lists `created`, `flushed`, `emitted` instrument the state:
  `created` logs every fresh `PendingGroup` insertion (line 79),
  `flushed` logs every waiter that observed `processed == False` and
  entered `process_media_group` (lines 97-105), and `emitted` logs every
  logical unit handed to the matcher/dispatcher pipeline (lines 120-134).
-/

/-- Python coercion of an optional string field with `or ""` default. -/
def pyStr (o : Option String) : String := o.getD ""

/-- Python truthiness of an optional string field: present and non-empty. -/
def pyTruthy (o : Option String) : Bool := pyStr o != ""

/-- Left-trim of a character list: drop leading whitespace. -/
def dropSpace : List Char → List Char
  | [] => []
  | c :: cs => if c.isWhitespace then dropSpace cs else c :: cs

/-- Embedding of Python `str.strip()`: drop whitespace on both ends. -/
def trimStr (s : String) : String := ⟨dropSpace ((dropSpace s.data.reverse).reverse)⟩

/-- Embedding of Python `str.lower()` (ASCII case folding). -/
def lowerStr (s : String) : String := ⟨s.data.map Char.toLower⟩

/-- Does the second list start the first one character for character. -/
def leadMatch : List Char → List Char → Bool
  | [], _ => true
  | _ :: _, [] => false
  | a :: as, b :: bs => a == b && leadMatch as bs

/-- Substring search on character lists. -/
def hasSub (needle : List Char) : List Char → Bool
  | [] => leadMatch needle []
  | h :: t => leadMatch needle (h :: t) || hasSub needle t

/-- Embedding of Python `needle in hay` on strings. -/
def containsSub (hay needle : String) : Bool := hasSub needle.data hay.data

/-- An incoming Telegram message, restricted to the fields bot.py reads. -/
structure Msg where
  media_group_id : Option String
  text : Option String
  caption : Option String
  photo : List String
  video : Option String
  document : Option String
deriving DecidableEq

/-- bot.py line 47: `full_text = (message.caption or message.text or "")`
(the `.strip()` is applied by the caller of this definition). -/
def captionOrText (m : Msg) : String :=
  if pyTruthy m.caption then pyStr m.caption
  else if pyTruthy m.text then pyStr m.text
  else ""

/-- The WATCHLIST configuration: keyword to recipient id, in iteration
order of the Python dict (insertion order). -/
abbrev Watchlist := List (String × Nat)

/-- bot.py lines 56-62 and 124-130: collect the (keyword, user_id) pairs
whose keyword occurs in the lower-cased text, skipping `"sofi"` when the
text also contains `"sofi art"`. -/
def found_agencies (watchlist : Watchlist) (lower_text : String) : List (String × Nat) :=
  watchlist.filter (fun kw =>
    containsSub lower_text kw.1 && !(kw.1 == "sofi" && containsSub lower_text "sofi art"))

/-- bot.py lines 153-156 and 202-205: the notification content, a fixed
header plus the quoted stripped text. -/
def content (full_text : String) : String :=
  "🚨 Нарушение\n\"" ++ trimStr full_text ++ "\""

/-- Kind of a media item inside an album. -/
inductive MediaKind where
  | photo
  | video
  | document
deriving DecidableEq

/-- One `InputMedia*` element of a media group send. -/
structure InputMedia where
  kind : MediaKind
  media : String
  caption : Option String
deriving DecidableEq

/-- One outbound call on the transport boundary (`self.bot.send_*`). -/
inductive Send where
  | photoMsg (chat_id : Nat) (fileId : String) (cap : String)
  | videoMsg (chat_id : Nat) (fileId : String) (cap : String)
  | documentMsg (chat_id : Nat) (fileId : String) (cap : String)
  | textMsg (chat_id : Nat) (textContent : String)
  | mediaGroupMsg (chat_id : Nat) (media : List InputMedia)
deriving DecidableEq

/-- The notification text carried by a single-item send. -/
def sendContent : Send → String
  | .photoMsg _ _ c => c
  | .videoMsg _ _ c => c
  | .documentMsg _ _ c => c
  | .textMsg _ t => t
  | .mediaGroupMsg _ _ => ""

/-- bot.py lines 139-192, `send_notification`: choose the one send call
by content type (photo, then video, then document, then plain text) and
attempt it; the surrounding `try/except` catches a transport failure, so
the outcome is returned, never raised. -/
def send_notification (fail : Send → Bool) (message : Msg) (user_id : Nat)
    (full_text : String) : Send × Bool :=
  let c := content full_text
  let s :=
    if message.photo ≠ [] then Send.photoMsg user_id (message.photo.getLastD "") c
    else if message.video.isSome then Send.videoMsg user_id (pyStr message.video) c
    else if message.document.isSome then Send.documentMsg user_id (pyStr message.document) c
    else Send.textMsg user_id c
  (s, !fail s)

/-- bot.py lines 46-66, `process_message` on a non-grouped message:
strip the caption-or-text, stop on empty text, match the lower-cased
text against the watchlist and attempt one notification per match. -/
def process_message_sends (fail : Send → Bool) (watchlist : Watchlist)
    (message : Msg) : List (Send × Bool) :=
  let full_text := trimStr (captionOrText message)
  if full_text = "" then []
  else
    let lower_text := lowerStr full_text
    (found_agencies watchlist lower_text).map
      (fun p => send_notification fail message p.2 full_text)

/-- bot.py lines 210-229: build the `media_list` of a media-group send.
`i` is the index of `msg` in the `enumerate(messages)` loop; the content
is attached as caption only when `i == 0`; messages without photo, video
or document are skipped. -/
def build_media_list (c : String) : Nat → List Msg → List InputMedia
  | _, [] => []
  | i, msg :: rest =>
    let cap : Option String := if i = 0 then some c else none
    if msg.photo ≠ [] then
      ⟨MediaKind.photo, msg.photo.getLastD "", cap⟩ :: build_media_list c (i + 1) rest
    else if msg.video.isSome then
      ⟨MediaKind.video, pyStr msg.video, cap⟩ :: build_media_list c (i + 1) rest
    else if msg.document.isSome then
      ⟨MediaKind.document, pyStr msg.document, cap⟩ :: build_media_list c (i + 1) rest
    else
      build_media_list c (i + 1) rest

/-- bot.py lines 194-247, `send_media_group_notification`: build the
media list; send it as one album if non-empty, else send the bare text;
the `try/except` catches a transport failure. -/
def send_media_group_notification (fail : Send → Bool) (messages : List Msg)
    (user_id : Nat) (full_text : String) : Send × Bool :=
  let c := content full_text
  let media_list := build_media_list c 0 messages
  let s := if media_list ≠ [] then Send.mediaGroupMsg user_id media_list
           else Send.textMsg user_id c
  (s, !fail s)

/-- One entry of `self.media_groups` (bot.py lines 79-83). -/
structure PendingGroup where
  messages : List Msg
  caption : String
  processed : Bool
deriving DecidableEq

/-- bot.py lines 78-90: the effect of one arriving group message on the
(possibly absent) entry: initialise if absent, append the message, and
capture the caption when the message has one and none is captured yet. -/
def groupAfter (og : Option PendingGroup) (m : Msg) : PendingGroup :=
  let g := og.getD ⟨[], "", false⟩
  { messages := g.messages ++ [m]
    caption := if pyTruthy m.caption ∧ g.caption = "" then pyStr m.caption else g.caption
    processed := g.processed }

/-- Lookup in the `media_groups` dict (assoc list with unique keys). -/
def lookupG : List (String × PendingGroup) → String → Option PendingGroup
  | [], _ => none
  | kv :: rest, k => if kv.1 = k then some kv.2 else lookupG rest k

/-- Dict assignment `self.media_groups[k] = v`. -/
def setG : List (String × PendingGroup) → String → PendingGroup → List (String × PendingGroup)
  | [], k, v => [(k, v)]
  | kv :: rest, k, v => if kv.1 = k then (k, v) :: rest else kv :: setG rest k v

/-- Dict deletion `del self.media_groups[k]`. -/
def eraseG : List (String × PendingGroup) → String → List (String × PendingGroup)
  | [], _ => []
  | kv :: rest, k => if kv.1 = k then eraseG rest k else kv :: eraseG rest k

/-- An in-flight `process_media_group` dispatch loop that has reached an
`await` inside its send loop: the group id, the text read at flush time
and the matched pairs not yet sent to. -/
structure FlushJob where
  gid : String
  full_text : String
  remaining : List (String × Nat)
deriving DecidableEq

/-- First in-flight job for a group id, if any. -/
def findJob : List FlushJob → String → Option FlushJob
  | [], _ => none
  | j :: rest, k => if j.gid = k then some j else findJob rest k

/-- Replace the remaining pairs of the first job for a group id. -/
def setJob : List FlushJob → String → List (String × Nat) → List FlushJob
  | [], _, _ => []
  | j :: rest, k, r => if j.gid = k then { j with remaining := r } :: rest else j :: setJob rest k r

/-- Remove the first job for a group id. -/
def removeJob : List FlushJob → String → List FlushJob
  | [], _ => []
  | j :: rest, k => if j.gid = k then rest else j :: removeJob rest k

/-- A logical unit handed to the matcher/dispatcher pipeline: the group
id, the resolved caption and the accumulated messages at flush time. -/
structure LogicalUnit where
  gid : String
  unit_text : String
  unit_messages : List Msg
deriving DecidableEq

/-- The full mutable state of the bot plus instrumentation logs. -/
structure BotState where
  media_groups : List (String × PendingGroup)
  jobs : List FlushJob
  emitted : List LogicalUnit
  sent : List (Send × Bool)
  created : List String
  flushed : List String
deriving DecidableEq

/-- The state right after `__init__`. -/
def initState : BotState := ⟨[], [], [], [], [], []⟩

/-- One atomic segment of the cooperative scheduler. -/
inductive Event where
  | arrive (m : Msg)
  | wake (gid : String)
  | progress (gid : String)
deriving DecidableEq

/-- bot.py lines 75-94: the synchronous prefix of `handle_media_group`,
from entry to `asyncio.sleep(0.5)`.  `created` additionally logs the
group id when a fresh entry is inserted. -/
def handle_media_group_pre (st : BotState) (gid : String) (m : Msg) : BotState :=
  let og := lookupG st.media_groups gid
  { st with
    media_groups := setG st.media_groups gid (groupAfter og m)
    created := if og.isNone then st.created ++ [gid] else st.created }

/-- bot.py lines 96-137: a waiter resuming after its sleep.  Reading
`processed` of a deleted group raises `KeyError`, which the `try/except`
of `process_message` catches — a no-op.  A waiter that sees
`processed == True` returns.  Otherwise it sets the flag, and (line 104
guards on a truthy group id) runs `process_media_group`: a blank caption
deletes the group silently; otherwise the logical unit is handed to the
matcher, and the dispatch loop either finishes synchronously (no match:
delete) or suspends at its first send with the remaining pairs queued as
a `FlushJob`. -/
def wake_step (watchlist : Watchlist) (st : BotState) (gid : String) : BotState :=
  match lookupG st.media_groups gid with
  | none => st
  | some g =>
    if g.processed then st
    else
      let st1 := { st with media_groups := setG st.media_groups gid { g with processed := true } }
      if gid = "" then st1
      else
        let full_text := g.caption
        if trimStr full_text = "" then
          { st1 with
            media_groups := eraseG st1.media_groups gid
            flushed := st1.flushed ++ [gid] }
        else
          let lower_text := lowerStr full_text
          let found := found_agencies watchlist lower_text
          let st2 := { st1 with
            emitted := st1.emitted ++ [(⟨gid, full_text, g.messages⟩ : LogicalUnit)]
            flushed := st1.flushed ++ [gid] }
          if found = [] then { st2 with media_groups := eraseG st2.media_groups gid }
          else { st2 with jobs := st2.jobs ++ [(⟨gid, full_text, found⟩ : FlushJob)] }

/-- bot.py lines 132-137: one resumption of the suspended dispatch loop
of `process_media_group`: attempt the next notification send (reading
the live message list of the group, which the Python closure aliases),
or, when all pairs are done, run the final `del` of the group. -/
def progress_step (fail : Send → Bool) (st : BotState) (gid : String) : BotState :=
  match findJob st.jobs gid with
  | none => st
  | some j =>
    match j.remaining with
    | [] =>
      { st with
        media_groups := eraseG st.media_groups gid
        jobs := removeJob st.jobs gid }
    | p :: rest =>
      let messages := ((lookupG st.media_groups gid).getD (⟨[], "", false⟩ : PendingGroup)).messages
      { st with
        sent := st.sent ++ [send_media_group_notification fail messages p.2 j.full_text]
        jobs := setJob st.jobs gid rest }

/-- bot.py lines 33-44 plus the waiter segments: one atomic step of the
cooperative scheduler.  An arriving message with a truthy
`media_group_id` enters the aggregator; any other message is processed
synchronously to completion. -/
def step (watchlist : Watchlist) (fail : Send → Bool) (st : BotState) : Event → BotState
  | .arrive m =>
    if pyTruthy m.media_group_id then handle_media_group_pre st (pyStr m.media_group_id) m
    else { st with sent := st.sent ++ process_message_sends fail watchlist m }
  | .wake gid => wake_step watchlist st gid
  | .progress gid => progress_step fail st gid

/-- Run a trace of scheduler segments from the initial state. -/
def run (watchlist : Watchlist) (fail : Send → Bool) (trace : List Event) : BotState :=
  trace.foldl (step watchlist fail) initState

/-- Occurrences of a group id in an instrumentation log. -/
def cnt (a : String) : List String → Nat
  | [] => 0
  | b :: l => (if b = a then 1 else 0) + cnt a l

/-- Occurrences of a group id among emitted logical units. -/
def cntU (a : String) : List LogicalUnit → Nat
  | [] => 0
  | u :: l => (if u.gid = a then 1 else 0) + cntU a l

/-- How many fresh `PendingGroup` entries were inserted for `gid`. -/
def createCount (gid : String) (st : BotState) : Nat := cnt gid st.created

/-- How many waiters observed `processed == False` for `gid` and entered
`process_media_group`. -/
def flushCount (gid : String) (st : BotState) : Nat := cnt gid st.flushed

/-- How many logical units were handed to the pipeline for `gid`. -/
def emitCount (gid : String) (st : BotState) : Nat := cntU gid st.emitted

/-- 1 when `gid` has an entry whose `processed` flag is still `False`. -/
def openBit (gid : String) (st : BotState) : Nat :=
  match lookupG st.media_groups gid with
  | some g => if g.processed then 0 else 1
  | none => 0

/-- The messages of the trace that the aggregator routes to group `gid`. -/
def msgsFor (gid : String) (ms : List Msg) : List Msg :=
  ms.filter (fun m => pyTruthy m.media_group_id && pyStr m.media_group_id == gid)

/-- The caption of the first message carrying a truthy one, else `""`. -/
def firstCaption : List Msg → String
  | [] => ""
  | m :: rest => if pyTruthy m.caption then pyStr m.caption else firstCaption rest

/-- Abstract per-group evolution: fold `groupAfter` over arriving
messages of one group. -/
def groupFold (og : Option PendingGroup) (ms : List Msg) : Option PendingGroup :=
  ms.foldl (fun o m => some (groupAfter o m)) og

/-- Every message of a group carries a photo, a video or a document. -/
def hasMedia (m : Msg) : Bool :=
  m.photo != [] || m.video.isSome || m.document.isSome

/-- The album item bot.py builds from one media-carrying message. -/
def item_of (cap : Option String) (m : Msg) : InputMedia :=
  if m.photo ≠ [] then ⟨MediaKind.photo, m.photo.getLastD "", cap⟩
  else if m.video.isSome then ⟨MediaKind.video, pyStr m.video, cap⟩
  else ⟨MediaKind.document, pyStr m.document, cap⟩

theorem lookupG_setG_self (l : List (String × PendingGroup)) (k : String) (v : PendingGroup) :
    lookupG (setG l k v) k = some v := by
  induction l with
  | nil => simp [setG, lookupG]
  | cons kv rest ih =>
    by_cases h : kv.1 = k
    · simp [setG, h, lookupG]
    · simp [setG, h, lookupG, ih]

theorem lookupG_setG_ne (l : List (String × PendingGroup)) (k k2 : String) (v : PendingGroup)
    (h : k ≠ k2) : lookupG (setG l k v) k2 = lookupG l k2 := by
  induction l with
  | nil => simp [setG, lookupG, h]
  | cons kv rest ih =>
    by_cases hk : kv.1 = k
    · simp [setG, hk, lookupG, h]
    · simp [setG, hk, lookupG, ih]

theorem lookupG_eraseG_self (l : List (String × PendingGroup)) (k : String) :
    lookupG (eraseG l k) k = none := by
  induction l with
  | nil => simp [eraseG, lookupG]
  | cons kv rest ih =>
    by_cases h : kv.1 = k
    · simp [eraseG, h, ih]
    · simp [eraseG, h, lookupG, ih]

theorem lookupG_eraseG_ne (l : List (String × PendingGroup)) (k k2 : String)
    (h : k ≠ k2) : lookupG (eraseG l k) k2 = lookupG l k2 := by
  induction l with
  | nil => simp [eraseG]
  | cons kv rest ih =>
    by_cases hk : kv.1 = k
    · subst hk
      simp [eraseG, lookupG, ih, h]
    · simp [eraseG, hk, lookupG, ih]

theorem cnt_append (a : String) (l1 l2 : List String) :
    cnt a (l1 ++ l2) = cnt a l1 + cnt a l2 := by
  induction l1 with
  | nil => simp [cnt]
  | cons b l ih => simp [cnt, ih]; omega

theorem cntU_append (a : String) (l1 l2 : List LogicalUnit) :
    cntU a (l1 ++ l2) = cntU a l1 + cntU a l2 := by
  induction l1 with
  | nil => simp [cntU]
  | cons u l ih => simp [cntU, ih]; omega

/-- The single-flush bookkeeping invariant, observed per group id:
waiters that won the flush race, plus an open unprocessed entry if any,
never exceed the number of fresh entry insertions; emissions never
exceed winning waiters. -/
def InvAt (gid : String) (st : BotState) : Prop :=
  flushCount gid st + openBit gid st ≤ createCount gid st ∧
  emitCount gid st ≤ flushCount gid st

theorem invAt_arrive (wl : Watchlist) (fail : Send → Bool) (gid : String) (st : BotState)
    (m : Msg) (h : InvAt gid st) : InvAt gid (step wl fail st (Event.arrive m)) := by
  obtain ⟨h1, h2⟩ := h
  by_cases hm : pyTruthy m.media_group_id
  · simp only [step, hm, if_true]
    refine ⟨?_, h2⟩
    by_cases hg : pyStr m.media_group_id = gid
    · rw [hg]
      cases hog : lookupG st.media_groups gid with
      | none =>
        have hob : openBit gid st = 0 := by simp [openBit, hog]
        have hcr : createCount gid (handle_media_group_pre st gid m)
            = createCount gid st + 1 := by
          simp [handle_media_group_pre, createCount, hog, cnt_append, cnt]
        have hop : openBit gid (handle_media_group_pre st gid m) = 1 := by
          simp [handle_media_group_pre, openBit, lookupG_setG_self, groupAfter, hog]
        have hfl : flushCount gid (handle_media_group_pre st gid m) = flushCount gid st := rfl
        rw [hcr, hop, hfl]
        omega
      | some g =>
        have hcr : createCount gid (handle_media_group_pre st gid m)
            = createCount gid st := by
          simp [handle_media_group_pre, createCount, hog]
        have hop : openBit gid (handle_media_group_pre st gid m) = openBit gid st := by
          simp [handle_media_group_pre, openBit, lookupG_setG_self, groupAfter, hog]
        have hfl : flushCount gid (handle_media_group_pre st gid m) = flushCount gid st := rfl
        rw [hcr, hop, hfl]
        exact h1
    · have hop : openBit gid (handle_media_group_pre st (pyStr m.media_group_id) m)
          = openBit gid st := by
        simp [handle_media_group_pre, openBit, lookupG_setG_ne _ _ _ _ hg]
      have hcr : createCount gid (handle_media_group_pre st (pyStr m.media_group_id) m)
          = createCount gid st := by
        unfold handle_media_group_pre createCount
        by_cases hn : (lookupG st.media_groups (pyStr m.media_group_id)).isNone
        · simp [hn, cnt_append, cnt, hg]
        · simp [hn]
      have hfl : flushCount gid (handle_media_group_pre st (pyStr m.media_group_id) m)
          = flushCount gid st := rfl
      rw [hcr, hop, hfl]
      exact h1
  · simp only [step, hm, if_false]
    exact ⟨h1, h2⟩

theorem openBit_none (gid : String) (st : BotState)
    (hlk : lookupG st.media_groups gid = none) : openBit gid st = 0 := by
  simp [openBit, hlk]

theorem openBit_one (gid : String) (st : BotState) (g : PendingGroup)
    (hlk : lookupG st.media_groups gid = some g) (hp : g.processed = false) :
    openBit gid st = 1 := by
  simp [openBit, hlk, hp]


theorem invAt_wake (wl : Watchlist) (gid gidw : String) (st : BotState)
    (h : InvAt gid st) : InvAt gid (wake_step wl st gidw) := by
  obtain ⟨h1, h2⟩ := h
  unfold wake_step
  cases hlk : lookupG st.media_groups gidw with
  | none => exact ⟨h1, h2⟩
  | some g =>
    by_cases hp : g.processed
    · simpa [hp] using And.intro h1 h2
    · simp only [Bool.not_eq_true] at hp
      simp only [hp, Bool.false_eq_true, if_false]
      by_cases hg : gidw = gid
      · subst hg
        rw [openBit_one gidw st g hlk hp] at h1
        simp only [flushCount, createCount, emitCount] at h1 h2
        by_cases he : gidw = ""
        · rw [if_pos he]
          constructor
          · have hop : openBit gidw
                { st with media_groups := setG st.media_groups gidw { g with processed := true } }
                = 0 := by
              simp [openBit, lookupG_setG_self]
            rw [hop]
            simp only [flushCount, createCount]
            omega
          · exact h2
        · rw [if_neg he]
          by_cases hb : trimStr g.caption = ""
          · rw [if_pos hb]
            constructor
            · have hop : openBit gidw
                  { st with
                    media_groups :=
                      eraseG (setG st.media_groups gidw { g with processed := true }) gidw
                    flushed := st.flushed ++ [gidw] } = 0 := by
                simp [openBit, lookupG_eraseG_self]
              rw [hop]
              simp only [flushCount, createCount, cnt_append, cnt, eq_self_iff_true, if_true]
              omega
            · simp only [emitCount, flushCount, cnt_append, cnt, eq_self_iff_true, if_true]
              omega
          · rw [if_neg hb]
            by_cases hf : found_agencies wl (lowerStr g.caption) = []
            · rw [if_pos hf]
              constructor
              · have hop : openBit gidw
                    { st with
                      media_groups :=
                        eraseG (setG st.media_groups gidw { g with processed := true }) gidw
                      emitted := st.emitted ++ [(⟨gidw, g.caption, g.messages⟩ : LogicalUnit)]
                      flushed := st.flushed ++ [gidw] } = 0 := by
                  simp [openBit, lookupG_eraseG_self]
                rw [hop]
                simp only [flushCount, createCount, cnt_append, cnt, eq_self_iff_true, if_true]
                omega
              · simp only [emitCount, flushCount, cnt_append, cntU_append, cnt, cntU,
                  eq_self_iff_true, if_true]
                omega
            · rw [if_neg hf]
              constructor
              · have hop : openBit gidw
                    { st with
                      jobs := st.jobs ++
                        [(⟨gidw, g.caption, found_agencies wl (lowerStr g.caption)⟩ : FlushJob)]
                      media_groups := setG st.media_groups gidw { g with processed := true }
                      emitted := st.emitted ++ [(⟨gidw, g.caption, g.messages⟩ : LogicalUnit)]
                      flushed := st.flushed ++ [gidw] } = 0 := by
                  simp [openBit, lookupG_setG_self]
                rw [hop]
                simp only [flushCount, createCount, cnt_append, cnt, eq_self_iff_true, if_true]
                omega
              · simp only [emitCount, flushCount, cnt_append, cntU_append, cnt, cntU,
                  eq_self_iff_true, if_true]
                omega
      · by_cases he : gidw = ""
        · rw [if_pos he]
          constructor
          · have hop : openBit gid
                { st with media_groups := setG st.media_groups gidw { g with processed := true } }
                = openBit gid st := by
              simp [openBit, lookupG_setG_ne _ _ _ _ hg]
            rw [hop]
            exact h1
          · exact h2
        · rw [if_neg he]
          by_cases hb : trimStr g.caption = ""
          · rw [if_pos hb]
            constructor
            · have hop : openBit gid
                  { st with
                    media_groups :=
                      eraseG (setG st.media_groups gidw { g with processed := true }) gidw
                    flushed := st.flushed ++ [gidw] } = openBit gid st := by
                simp [openBit, lookupG_eraseG_ne _ _ _ hg, lookupG_setG_ne _ _ _ _ hg]
              rw [hop]
              simp only [flushCount, createCount, cnt_append, cnt, hg, if_false] at h1 ⊢
              omega
            · simp only [emitCount, flushCount, cnt_append, cnt, hg, if_false] at h2 ⊢
              omega
          · rw [if_neg hb]
            by_cases hf : found_agencies wl (lowerStr g.caption) = []
            · rw [if_pos hf]
              constructor
              · have hop : openBit gid
                    { st with
                      media_groups :=
                        eraseG (setG st.media_groups gidw { g with processed := true }) gidw
                      emitted := st.emitted ++ [(⟨gidw, g.caption, g.messages⟩ : LogicalUnit)]
                      flushed := st.flushed ++ [gidw] } = openBit gid st := by
                  simp [openBit, lookupG_eraseG_ne _ _ _ hg, lookupG_setG_ne _ _ _ _ hg]
                rw [hop]
                simp only [flushCount, createCount, cnt_append, cnt, hg, if_false] at h1 ⊢
                omega
              · simp only [emitCount, flushCount, cnt_append, cntU_append, cnt, cntU, hg,
                  if_false] at h2 ⊢
                omega
            · rw [if_neg hf]
              constructor
              · have hop : openBit gid
                    { st with
                      jobs := st.jobs ++
                        [(⟨gidw, g.caption, found_agencies wl (lowerStr g.caption)⟩ : FlushJob)]
                      media_groups := setG st.media_groups gidw { g with processed := true }
                      emitted := st.emitted ++ [(⟨gidw, g.caption, g.messages⟩ : LogicalUnit)]
                      flushed := st.flushed ++ [gidw] } = openBit gid st := by
                  simp [openBit, lookupG_setG_ne _ _ _ _ hg]
                rw [hop]
                simp only [flushCount, createCount, cnt_append, cnt, hg, if_false] at h1 ⊢
                omega
              · simp only [emitCount, flushCount, cnt_append, cntU_append, cnt, cntU, hg,
                  if_false] at h2 ⊢
                omega

theorem invAt_progress (fail : Send → Bool) (gid gidw : String) (st : BotState)
    (h : InvAt gid st) : InvAt gid (progress_step fail st gidw) := by
  obtain ⟨h1, h2⟩ := h
  unfold progress_step
  split
  · exact ⟨h1, h2⟩
  · split
    · refine ⟨?_, h2⟩
      by_cases hg : gidw = gid
      · subst hg
        have hop : openBit gidw
            { st with media_groups := eraseG st.media_groups gidw, jobs := removeJob st.jobs gidw }
            = 0 := by
          simp [openBit, lookupG_eraseG_self]
        rw [hop]
        have h3 : flushCount gidw st ≤ createCount gidw st := by omega
        simpa using h3
      · have hop : openBit gid
            { st with media_groups := eraseG st.media_groups gidw, jobs := removeJob st.jobs gidw }
            = openBit gid st := by
          simp [openBit, lookupG_eraseG_ne _ _ _ hg]
        rw [hop]
        exact h1
    · exact ⟨h1, h2⟩

theorem invAt_step (wl : Watchlist) (fail : Send → Bool) (gid : String) (st : BotState)
    (e : Event) (h : InvAt gid st) : InvAt gid (step wl fail st e) := by
  cases e with
  | arrive m => exact invAt_arrive wl fail gid st m h
  | wake gidw => exact invAt_wake wl gid gidw st h
  | progress gidw => exact invAt_progress fail gid gidw st h

theorem invAt_foldl (wl : Watchlist) (fail : Send → Bool) (gid : String) :
    ∀ (trace : List Event) (st : BotState), InvAt gid st →
      InvAt gid (trace.foldl (step wl fail) st)
  | [], _, h => h
  | e :: tr, st, h => invAt_foldl wl fail gid tr _ (invAt_step wl fail gid st e h)

theorem invAt_init (gid : String) : InvAt gid initState := by
  constructor
  · simp [flushCount, createCount, openBit, initState, cnt, lookupG]
  · simp [emitCount, flushCount, initState, cntU, cnt]

theorem invAt_run (wl : Watchlist) (fail : Send → Bool) (trace : List Event) (gid : String) :
    InvAt gid (run wl fail trace) :=
  invAt_foldl wl fail gid trace initState (invAt_init gid)

theorem pyTruthy_iff (o : Option String) : pyTruthy o = true ↔ pyStr o ≠ "" := by
  simp [pyTruthy]

theorem groupFold_some (ms : List Msg) : ∀ (g : PendingGroup),
    groupFold (some g) ms = some
      ⟨g.messages ++ ms,
       if g.caption = "" then firstCaption ms else g.caption,
       g.processed⟩ := by
  induction ms with
  | nil =>
    intro g
    obtain ⟨gm, gc, gp⟩ := g
    by_cases hc : gc = "" <;> simp [groupFold, firstCaption, hc]
  | cons m rest ih =>
    intro g
    obtain ⟨gm, gc, gp⟩ := g
    have hstep : groupFold (some (⟨gm, gc, gp⟩ : PendingGroup)) (m :: rest)
        = groupFold (some (groupAfter (some (⟨gm, gc, gp⟩ : PendingGroup)) m)) rest := rfl
    rw [hstep, ih]
    by_cases hmc : pyTruthy m.caption
    · have hne : pyStr m.caption ≠ "" := (pyTruthy_iff m.caption).mp hmc
      by_cases hgc : gc = ""
      · simp [groupAfter, firstCaption, hmc, hgc, hne]
      · simp [groupAfter, firstCaption, hmc, hgc]
    · by_cases hgc : gc = ""
      · simp [groupAfter, firstCaption, hmc, hgc]
      · simp [groupAfter, firstCaption, hmc, hgc]

theorem groupFold_none_cons (m : Msg) (rest : List Msg) :
    groupFold none (m :: rest) = some ⟨m :: rest, firstCaption (m :: rest), false⟩ := by
  have hstep : groupFold none (m :: rest)
      = groupFold (some (groupAfter none m)) rest := rfl
  rw [hstep, groupFold_some]
  by_cases hmc : pyTruthy m.caption
  · have hne : pyStr m.caption ≠ "" := (pyTruthy_iff m.caption).mp hmc
    simp [groupAfter, firstCaption, hmc, hne]
  · simp [groupAfter, firstCaption, hmc]

theorem lookupG_arrivals (wl : Watchlist) (fail : Send → Bool) (gid : String) :
    ∀ (ms : List Msg) (st : BotState),
      lookupG ((ms.map Event.arrive).foldl (step wl fail) st).media_groups gid
        = groupFold (lookupG st.media_groups gid) (msgsFor gid ms) := by
  intro ms
  induction ms with
  | nil => intro st; simp [msgsFor, groupFold]
  | cons m rest ih =>
    intro st
    rw [List.map_cons, List.foldl_cons, ih]
    by_cases hm : pyTruthy m.media_group_id
    · by_cases hgg : pyStr m.media_group_id = gid
      · have hlk : lookupG (step wl fail st (Event.arrive m)).media_groups gid
            = some (groupAfter (lookupG st.media_groups gid) m) := by
          simp only [step, hm, if_true, handle_media_group_pre]
          rw [← hgg, lookupG_setG_self]
        rw [hlk]
        have hms : msgsFor gid (m :: rest) = m :: msgsFor gid rest := by
          simp [msgsFor, List.filter_cons, hm, hgg]
        rw [hms]
        rfl
      · have hlk : lookupG (step wl fail st (Event.arrive m)).media_groups gid
            = lookupG st.media_groups gid := by
          simp only [step, hm, if_true, handle_media_group_pre]
          exact lookupG_setG_ne _ _ _ _ hgg
        have hms : msgsFor gid (m :: rest) = msgsFor gid rest := by
          simp [msgsFor, List.filter_cons, hm, hgg]
        rw [hlk, hms]
    · have hlk : lookupG (step wl fail st (Event.arrive m)).media_groups gid
          = lookupG st.media_groups gid := by
        simp only [step, hm, if_false]
        rfl
      have hms : msgsFor gid (m :: rest) = msgsFor gid rest := by
        simp [msgsFor, List.filter_cons, hm]
      rw [hlk, hms]

theorem build_media_list_pos (c : String) : ∀ (msgs : List Msg) (i : Nat), i ≠ 0 →
    build_media_list c i msgs = (msgs.filter hasMedia).map (item_of none) := by
  intro msgs
  induction msgs with
  | nil => intro i _; simp [build_media_list]
  | cons m rest ih =>
    intro i hi
    have hihr := ih (i + 1) (Nat.succ_ne_zero i)
    unfold build_media_list
    simp only [if_neg hi]
    by_cases hph : m.photo ≠ []
    · have hm : hasMedia m = true := by
        simp [hasMedia, hph]
      simp only [if_pos hph]
      rw [hihr]
      simp [List.filter_cons, hm, item_of, hph]
    · simp only [if_neg hph]
      by_cases hv : m.video.isSome
      · have hm : hasMedia m = true := by
          simp [hasMedia, hv]
        simp only [hv, if_true]
        rw [hihr]
        simp [List.filter_cons, hm, item_of, hph, hv]
      · simp only [hv, Bool.false_eq_true, if_false]
        by_cases hd : m.document.isSome
        · have hm : hasMedia m = true := by
            simp [hasMedia, hd]
          simp only [hd, if_true]
          rw [hihr]
          simp [List.filter_cons, hm, item_of, hph, hv, hd]
        · have hph2 : m.photo = [] := by simpa using hph
          have hv2 : m.video.isSome = false := by simpa using hv
          have hd2 : m.document.isSome = false := by simpa using hd
          have hm : hasMedia m = false := by
            simp [hasMedia, hph2, hv2, hd2]
          simp only [hd, Bool.false_eq_true, if_false]
          rw [hihr]
          simp [List.filter_cons, hm]

theorem build_media_list_zero (c : String) (m : Msg) (rest : List Msg)
    (hm : hasMedia m = true) :
    build_media_list c 0 (m :: rest)
      = item_of (some c) m :: (rest.filter hasMedia).map (item_of none) := by
  have hpos := build_media_list_pos c rest 1 Nat.one_ne_zero
  unfold build_media_list
  simp only [if_pos rfl]
  by_cases hph : m.photo ≠ []
  · simp only [if_pos hph]
    rw [hpos]
    simp [item_of, hph]
  · simp only [if_neg hph]
    by_cases hv : m.video.isSome
    · simp only [hv, if_true]
      rw [hpos]
      simp [item_of, hph, hv]
    · simp only [hv, Bool.false_eq_true, if_false]
      by_cases hd : m.document.isSome
      · simp only [hd, if_true]
        rw [hpos]
        simp [item_of, hph, hv, hd]
      · exfalso
        simp only [hasMedia, hv, hd, Bool.or_false] at hm
        simp only [bne_iff_ne, ne_eq] at hm
        exact hph (by simpa using hm)

theorem sendContent_send_notification (fail : Send → Bool) (m : Msg) (uid : Nat)
    (ft : String) : sendContent (send_notification fail m uid ft).1 = content ft := by
  unfold send_notification
  by_cases hph : m.photo ≠ []
  · simp [hph, sendContent]
  · by_cases hv : m.video.isSome
    · simp [hph, hv, sendContent]
    · by_cases hd : m.document.isSome
      · simp [hph, hv, hd, sendContent]
      · simp [hph, hv, hd, sendContent]

/-- C6: for any watchlist carrying the keyword `"sofi"`, a text whose
normalized (trimmed, lower-cased) form contains `"sofi art"` never
yields the `"sofi"` pair, while a normalized text containing `"sofi"`
but not `"sofi art"` always yields it. -/
theorem sofi_exclusion :
    (∀ (wl : Watchlist) (u : Nat) (t : String),
        containsSub (lowerStr (trimStr t)) "sofi art" = true →
        ("sofi", u) ∉ found_agencies wl (lowerStr (trimStr t)))
    ∧ (∀ (wl : Watchlist) (u : Nat) (t : String),
        ("sofi", u) ∈ wl →
        containsSub (lowerStr (trimStr t)) "sofi" = true →
        containsSub (lowerStr (trimStr t)) "sofi art" = false →
        ("sofi", u) ∈ found_agencies wl (lowerStr (trimStr t))) := by
  constructor
  · intro wl u t ha hmem
    have h := (List.mem_filter.mp hmem).2
    simp [ha] at h
  · intro wl u t hwl hs ha
    refine List.mem_filter.mpr ⟨hwl, ?_⟩
    simp [hs, ha]

/-- C7: the notification text is the fixed header `🚨 Нарушение`, a
newline, and the stripped original text in double quotes, with the
original letter case preserved (the lower-cased text is used only for
matching); on the watchlist `{"acme": 1}` the message text
`"Acme did something"` produces exactly one text notification reading
the header plus the quoted original. -/
theorem notification_text_format :
    (∀ t : String, content t = "🚨 Нарушение\n\"" ++ trimStr t ++ "\"")
    ∧ (∀ (fail : Send → Bool) (wl : Watchlist) (m : Msg) (s : Send × Bool),
        s ∈ process_message_sends fail wl m →
        sendContent s.1 = content (trimStr (captionOrText m)))
    ∧ process_message_sends (fun _ => false) [("acme", 1)]
        ⟨none, some "Acme did something", none, [], none, none⟩
        = [(Send.textMsg 1 "🚨 Нарушение\n\"Acme did something\"", true)] := by
  refine ⟨fun _ => rfl, ?_, by decide⟩
  intro fail wl m s hmem
  unfold process_message_sends at hmem
  by_cases hft : trimStr (captionOrText m) = ""
  · simp [hft] at hmem
  · have hmem2 : ∃ a b,
        (a, b) ∈ found_agencies wl (lowerStr (trimStr (captionOrText m))) ∧
          send_notification fail m b (trimStr (captionOrText m)) = s := by
      simpa [hft] using hmem
    obtain ⟨a, b, hp, hs⟩ := hmem2
    rw [← hs]
    exact sendContent_send_notification fail m b (trimStr (captionOrText m))

/-- C8: the set of attempted sends is the same function of the message
whatever the failure pattern of the transport (a failing send for one
matched pair never prevents or alters the attempts for the others);
exactly one attempt is made per matched pair; and a transport failure is
recorded in the returned outcome, never raised. -/
theorem send_failure_isolated :
    (∀ (fail fail2 : Send → Bool) (wl : Watchlist) (m : Msg),
        (process_message_sends fail wl m).map Prod.fst
          = (process_message_sends fail2 wl m).map Prod.fst)
    ∧ (∀ (fail : Send → Bool) (wl : Watchlist) (m : Msg),
        trimStr (captionOrText m) ≠ "" →
        (process_message_sends fail wl m).length
          = (found_agencies wl (lowerStr (trimStr (captionOrText m)))).length)
    ∧ (∀ (fail : Send → Bool) (m : Msg) (uid : Nat) (ft : String),
        (send_notification fail m uid ft).2
          = !fail (send_notification fail m uid ft).1) := by
  refine ⟨?_, ?_, fun _ _ _ _ => rfl⟩
  · intro fail fail2 wl m
    unfold process_message_sends
    by_cases hft : trimStr (captionOrText m) = ""
    · simp [hft]
    · simp only [hft, if_false]
      rw [List.map_map, List.map_map]
      rfl
  · intro fail wl m hft
    simp [process_message_sends, hft]

/-- C9: on a non-grouped message carrying both a caption and a text, the
caption wins: the processed string is the caption, the text field is
ignored entirely, and the notification quotes the stripped caption. -/
theorem caption_precedence :
    (∀ m : Msg, pyTruthy m.caption = true → captionOrText m = pyStr m.caption)
    ∧ (∀ (fail : Send → Bool) (wl : Watchlist) (m : Msg) (t : Option String),
        pyTruthy m.caption = true →
        process_message_sends fail wl { m with text := t }
          = process_message_sends fail wl m)
    ∧ (∀ (fail : Send → Bool) (wl : Watchlist) (m : Msg) (s : Send × Bool),
        pyTruthy m.caption = true → s ∈ process_message_sends fail wl m →
        sendContent s.1 = content (trimStr (pyStr m.caption))) := by
  have hcap : ∀ m : Msg, pyTruthy m.caption = true → captionOrText m = pyStr m.caption := by
    intro m h
    simp [captionOrText, h]
  refine ⟨hcap, ?_, ?_⟩
  · intro fail wl m t h
    have hc : captionOrText { m with text := t } = captionOrText m := by
      have h2 : pyTruthy (Msg.caption { m with text := t }) = true := h
      rw [hcap _ h2, hcap _ h]
    unfold process_message_sends
    rw [hc]
    rfl
  · intro fail wl m s h hmem
    unfold process_message_sends at hmem
    by_cases hft : trimStr (captionOrText m) = ""
    · simp [hft] at hmem
    · have hmem2 : ∃ a b,
          (a, b) ∈ found_agencies wl (lowerStr (trimStr (captionOrText m))) ∧
            send_notification fail m b (trimStr (captionOrText m)) = s := by
        simpa [hft] using hmem
      obtain ⟨a, b, hp, hs⟩ := hmem2
      rw [← hs, sendContent_send_notification, hcap m h]

/-- C10: each matched pair of a non-grouped message triggers exactly one
outbound send, chosen by the fixed priority photo, then video, then
document, then plain text; a message with several media fields still
produces only the single highest-priority send. -/
theorem send_priority :
    (∀ (fail : Send → Bool) (wl : Watchlist) (m : Msg),
        trimStr (captionOrText m) ≠ "" →
        process_message_sends fail wl m
          = (found_agencies wl (lowerStr (trimStr (captionOrText m)))).map
              (fun p => send_notification fail m p.2 (trimStr (captionOrText m))))
    ∧ (∀ (fail : Send → Bool) (m : Msg) (uid : Nat) (ft : String), m.photo ≠ [] →
        (send_notification fail m uid ft).1
          = Send.photoMsg uid (m.photo.getLastD "") (content ft))
    ∧ (∀ (fail : Send → Bool) (m : Msg) (uid : Nat) (ft : String),
        m.photo = [] → m.video.isSome →
        (send_notification fail m uid ft).1
          = Send.videoMsg uid (pyStr m.video) (content ft))
    ∧ (∀ (fail : Send → Bool) (m : Msg) (uid : Nat) (ft : String),
        m.photo = [] → m.video = none → m.document.isSome →
        (send_notification fail m uid ft).1
          = Send.documentMsg uid (pyStr m.document) (content ft))
    ∧ (∀ (fail : Send → Bool) (m : Msg) (uid : Nat) (ft : String),
        m.photo = [] → m.video = none → m.document = none →
        (send_notification fail m uid ft).1 = Send.textMsg uid (content ft)) := by
  refine ⟨?_, ?_, ?_, ?_, ?_⟩
  · intro fail wl m hft
    simp [process_message_sends, hft]
  · intro fail m uid ft hph
    simp [send_notification, hph]
  · intro fail m uid ft hph hv
    simp [send_notification, hph, hv]
  · intro fail m uid ft hph hv hd
    simp [send_notification, hph, hv, hd]
  · intro fail m uid ft hph hv hd
    simp [send_notification, hph, hv, hd]

/-- C1: over every scheduler interleaving in which all messages of a
group arrive before or during its quiescence window (the group entry is
created at most once), at most one waiter observes `processed == False`
and performs the flush, and at most that one flush hands a LogicalUnit
to the dispatch pipeline; a waiter that wakes on an open unprocessed
group always wins (it logs the flush and leaves no unprocessed entry),
and a waiter that wakes when the group is absent or already processed is
an exact no-op. -/
theorem group_flushed_at_most_once :
    (∀ (wl : Watchlist) (fail : Send → Bool) (trace : List Event) (gid : String),
        createCount gid (run wl fail trace) ≤ 1 →
        flushCount gid (run wl fail trace) ≤ 1 ∧
        emitCount gid (run wl fail trace) ≤ flushCount gid (run wl fail trace))
    ∧ (∀ (wl : Watchlist) (fail : Send → Bool) (st : BotState) (gid : String)
        (g : PendingGroup),
        gid ≠ "" → lookupG st.media_groups gid = some g → g.processed = false →
        flushCount gid (step wl fail st (Event.wake gid)) = flushCount gid st + 1 ∧
        openBit gid (step wl fail st (Event.wake gid)) = 0)
    ∧ (∀ (wl : Watchlist) (fail : Send → Bool) (st : BotState) (gid : String),
        openBit gid st = 0 → step wl fail st (Event.wake gid) = st) := by
  refine ⟨?_, ?_, ?_⟩
  · intro wl fail trace gid hcr
    obtain ⟨h1, h2⟩ := invAt_run wl fail trace gid
    exact ⟨by omega, h2⟩
  · intro wl fail st gid g hgid hlk hp
    show flushCount gid (wake_step wl st gid) = flushCount gid st + 1 ∧
      openBit gid (wake_step wl st gid) = 0
    unfold wake_step
    simp only [hlk]
    simp only [hp, Bool.false_eq_true, if_false]
    rw [if_neg hgid]
    by_cases hb : trimStr g.caption = ""
    · rw [if_pos hb]
      constructor
      · simp only [flushCount, cnt_append, cnt, eq_self_iff_true, if_true]
      · simp [openBit, lookupG_eraseG_self]
    · rw [if_neg hb]
      by_cases hf : found_agencies wl (lowerStr g.caption) = []
      · rw [if_pos hf]
        constructor
        · simp only [flushCount, cnt_append, cnt, eq_self_iff_true, if_true]
        · simp [openBit, lookupG_eraseG_self]
      · rw [if_neg hf]
        constructor
        · simp only [flushCount, cnt_append, cnt, eq_self_iff_true, if_true]
        · simp [openBit, lookupG_setG_self]
  · intro wl fail st gid hob
    show wake_step wl st gid = st
    unfold openBit at hob
    cases hlk : lookupG st.media_groups gid with
    | none => unfold wake_step; simp [hlk]
    | some g =>
      rw [hlk] at hob
      by_cases hpp : g.processed
      · unfold wake_step; simp [hlk, hpp]
      · simp [hpp] at hob

/-- C2: after any sequence of arrivals, the pending group of a given id
holds exactly its messages in arrival order, and its caption is the
caption of the first arriving message of the group that carries a
non-empty one (later captions never overwrite it; `""` if none). -/
theorem caption_first_wins :
    ∀ (wl : Watchlist) (fail : Send → Bool) (ms : List Msg) (gid : String)
      (m0 : Msg) (rest : List Msg),
      msgsFor gid ms = m0 :: rest →
      lookupG (run wl fail (ms.map Event.arrive)).media_groups gid
        = some ⟨m0 :: rest, firstCaption (m0 :: rest), false⟩ := by
  intro wl fail ms gid m0 rest hms
  unfold run
  rw [lookupG_arrivals wl fail gid ms initState, hms]
  exact groupFold_none_cons m0 rest

/-- C3: a waiter that flushes a group whose captured caption is blank
(empty or whitespace-only) emits no LogicalUnit, attempts no
notification send, queues no dispatch job, and still deletes the
PendingGroup entry; nothing is raised. -/
theorem blank_caption_discarded_silently :
    ∀ (wl : Watchlist) (st : BotState) (gid : String) (g : PendingGroup),
      gid ≠ "" → lookupG st.media_groups gid = some g → g.processed = false →
      trimStr g.caption = "" →
      (wake_step wl st gid).emitted = st.emitted ∧
      (wake_step wl st gid).sent = st.sent ∧
      (wake_step wl st gid).jobs = st.jobs ∧
      lookupG (wake_step wl st gid).media_groups gid = none := by
  intro wl st gid g hgid hlk hp hb
  have hw : wake_step wl st gid =
      { st with
        media_groups := eraseG (setG st.media_groups gid { g with processed := true }) gid
        flushed := st.flushed ++ [gid] } := by
    unfold wake_step
    simp only [hlk]
    simp only [hp, Bool.false_eq_true, if_false]
    rw [if_neg hgid, if_pos hb]
  rw [hw]
  exact ⟨rfl, rfl, rfl, lookupG_eraseG_self _ _⟩

/-- A one-message group with no caption, used to exhibit that the
reference behavior does delete uncaptioned groups. -/
def mC4 : Msg := ⟨some "G1", none, none, ["P1"], none, none⟩

/-- C4 counterexample: a group that receives no caption and no further
messages does NOT persist forever — the single waiter scheduled by its
own arriving message wakes after the quiescence delay and removes the
entry from the group table. -/
theorem uncaptioned_group_removed_counterexample :
    lookupG (run [] (fun _ => false) [Event.arrive mC4]).media_groups "G1"
      = some ⟨[mC4], "", false⟩
    ∧ lookupG (run [] (fun _ => false)
        [Event.arrive mC4, Event.wake "G1"]).media_groups "G1" = none := by
  decide

/-- C4 amended: a group entry is removed only by the flush performed by
a waiter (an arrival step never removes any entry), and the waiter that
an arriving uncaptioned message schedules does remove the entry when it
fires, so an uncaptioned group survives exactly until its first waiter
wakes rather than forever. -/
theorem group_discard_only_at_waiter_flush :
    (∀ (wl : Watchlist) (fail : Send → Bool) (st : BotState) (m : Msg) (gid : String),
        lookupG st.media_groups gid ≠ none →
        lookupG (step wl fail st (Event.arrive m)).media_groups gid ≠ none)
    ∧ (∀ (wl : Watchlist) (st : BotState) (gid : String) (g : PendingGroup),
        gid ≠ "" → lookupG st.media_groups gid = some g → g.processed = false →
        trimStr g.caption = "" →
        lookupG (wake_step wl st gid).media_groups gid = none) := by
  constructor
  · intro wl fail st m gid hne
    by_cases hm : pyTruthy m.media_group_id
    · simp only [step, hm, if_true]
      unfold handle_media_group_pre
      by_cases hgg : pyStr m.media_group_id = gid
      · rw [← hgg]
        simp [lookupG_setG_self]
      · simp only [lookupG_setG_ne _ _ _ _ hgg]
        exact hne
    · simp only [step, hm, if_false]
      exact hne
  · intro wl st gid g hgid hlk hp hb
    unfold wake_step
    simp only [hlk]
    simp only [hp, Bool.false_eq_true, if_false]
    rw [if_neg hgid, if_pos hb]
    exact lookupG_eraseG_self _ _

/-- First message of the C5 counterexample group: it carries no media. -/
def mCE0 : Msg := ⟨some "G1", some "x", none, [], none, none⟩

/-- Second message of the C5 counterexample group: photo P1. -/
def mCE1 : Msg := ⟨some "G1", none, none, ["P1"], none, none⟩

/-- Third message of the C5 counterexample group: photo P2. -/
def mCE2 : Msg := ⟨some "G1", none, none, ["P2"], none, none⟩

/-- C5 counterexample: a flushed group with more than one attachment
whose first message carries no media produces one album send in which NO
item carries the notification text, because the code attaches the
caption by message index 0, not to the first built item; the claim that
the first item of the album carries the text fails here. -/
theorem album_caption_counterexample :
    send_media_group_notification (fun _ => false) [mCE0, mCE1, mCE2] 1 "acme"
      = (Send.mediaGroupMsg 1
          [⟨MediaKind.photo, "P1", none⟩, ⟨MediaKind.photo, "P2", none⟩], true)
    ∧ (build_media_list (content "acme") 0 [mCE0, mCE1, mCE2]).map InputMedia.caption
      = [none, none] := by
  decide

/-- C5 amended: the aggregator stores a group's messages in arrival
order, and for a group with more than one attachment whose FIRST
message carries media, each matched pair gets exactly one album send
whose items are the group's media-carrying messages in that order, with
the notification text as the caption of the first item only and `none`
on every other item; only a first message without media (the
counterexample) loses the caption, since the code attaches it at
message index 0 of the `enumerate` loop. -/
theorem album_send_shape :
    (∀ (wl : Watchlist) (fail : Send → Bool) (ms : List Msg) (gid : String)
        (m0 : Msg) (rest : List Msg),
        msgsFor gid ms = m0 :: rest →
        ((lookupG (run wl fail (ms.map Event.arrive)).media_groups gid).getD
            (⟨[], "", false⟩ : PendingGroup)).messages = m0 :: rest)
    ∧ (∀ (fail : Send → Bool) (m0 : Msg) (rest : List Msg) (uid : Nat) (ft : String),
        hasMedia m0 = true → rest.filter hasMedia ≠ [] →
        send_media_group_notification fail (m0 :: rest) uid ft
          = (Send.mediaGroupMsg uid
              (item_of (some (content ft)) m0 :: (rest.filter hasMedia).map (item_of none)),
             !fail (Send.mediaGroupMsg uid
               (item_of (some (content ft)) m0 ::
                 (rest.filter hasMedia).map (item_of none))))) := by
  constructor
  · intro wl fail ms gid m0 rest hms
    unfold run
    rw [lookupG_arrivals wl fail gid ms initState, hms]
    rw [show groupFold (lookupG initState.media_groups gid) (m0 :: rest)
          = some (⟨m0 :: rest, firstCaption (m0 :: rest), false⟩ : PendingGroup)
        from groupFold_none_cons m0 rest]
    rfl
  · intro fail m0 rest uid ft hm hne
    have hbml := build_media_list_zero (content ft) m0 rest hm
    simp only [send_media_group_notification]
    rw [hbml]
    simp

/-- A transport oracle on which every send succeeds. -/
def fW : Send → Bool := fun _ => false

/-- A transport oracle on which every send raises. -/
def fT2 : Send → Bool := fun _ => true

/-- A one-entry watchlist used by the concrete scenarios. -/
def wlW : Watchlist := [("acme", 1)]

/-- Group message with caption `"acme"` and photo P1. -/
def mW1 : Msg := ⟨some "G1", none, some "acme", ["P1"], none, none⟩

/-- Group message with no caption and photo P2. -/
def mW2 : Msg := ⟨some "G1", none, none, ["P2"], none, none⟩

/-- Group message with a later caption `"zzz"` and photo P3. -/
def mLate : Msg := ⟨some "G1", none, some "zzz", ["P3"], none, none⟩

/-- Group message with caption `"acme"` and photo P2. -/
def mCap : Msg := ⟨some "G1", none, some "acme", ["P2"], none, none⟩

/-- Two arrivals of group G1 followed by both waiters waking. -/
def trW : List Event :=
  [Event.arrive mW1, Event.arrive mW2, Event.wake "G1", Event.wake "G1"]

/-- An open unprocessed group whose captured caption is whitespace. -/
def gBlank : PendingGroup := ⟨[mW2], " ", false⟩

/-- A state holding the whitespace-caption group under id G1. -/
def stC3 : BotState := ⟨[("G1", gBlank)], [], [], [], ["G1"], []⟩

/-- Non-grouped message whose text is `"Acme did something"`. -/
def mAcme : Msg := ⟨none, some "Acme did something", none, [], none, none⟩

/-- Non-grouped message carrying both a caption and a text. -/
def mBoth : Msg := ⟨none, some "ttt", some "Acme wins", [], none, none⟩

/-- Non-grouped message carrying photo, video and document at once. -/
def mMulti : Msg := ⟨none, none, some "acme", ["P1", "P2"], some "V1", some "D1"⟩

theorem group_flushed_at_most_once_witness :
    (flushCount "G1" (run wlW fW trW) ≤ 1 ∧
      emitCount "G1" (run wlW fW trW) ≤ flushCount "G1" (run wlW fW trW))
    ∧ (flushCount "G1" (step wlW fW stC3 (Event.wake "G1")) = flushCount "G1" stC3 + 1 ∧
       openBit "G1" (step wlW fW stC3 (Event.wake "G1")) = 0)
    ∧ step wlW fW initState (Event.wake "G1") = initState :=
  ⟨group_flushed_at_most_once.1 wlW fW trW "G1" (by decide),
   group_flushed_at_most_once.2.1 wlW fW stC3 "G1" gBlank (by decide) (by decide) (by decide),
   group_flushed_at_most_once.2.2 wlW fW initState "G1" (by decide)⟩

theorem caption_first_wins_witness :
    lookupG (run wlW fW ([mW2, mCap, mLate].map Event.arrive)).media_groups "G1"
      = some ⟨[mW2, mCap, mLate], "acme", false⟩ := by
  have h := caption_first_wins wlW fW [mW2, mCap, mLate] "G1" mW2 [mCap, mLate] (by decide)
  rw [h]
  decide

theorem blank_caption_discarded_silently_witness :
    (wake_step wlW stC3 "G1").emitted = stC3.emitted ∧
    (wake_step wlW stC3 "G1").sent = stC3.sent ∧
    (wake_step wlW stC3 "G1").jobs = stC3.jobs ∧
    lookupG (wake_step wlW stC3 "G1").media_groups "G1" = none :=
  blank_caption_discarded_silently wlW stC3 "G1" gBlank (by decide) (by decide)
    (by decide) (by decide)

theorem group_discard_only_at_waiter_flush_witness :
    (lookupG (step wlW fW stC3 (Event.arrive mW2)).media_groups "G1" ≠ none)
    ∧ lookupG (wake_step wlW stC3 "G1").media_groups "G1" = none :=
  ⟨group_discard_only_at_waiter_flush.1 wlW fW stC3 mW2 "G1" (by decide),
   group_discard_only_at_waiter_flush.2 wlW stC3 "G1" gBlank (by decide) (by decide)
     (by decide) (by decide)⟩

theorem album_send_shape_witness :
    ((lookupG (run wlW fW ([mW1, mCE0, mW2].map Event.arrive)).media_groups "G1").getD
        (⟨[], "", false⟩ : PendingGroup)).messages = [mW1, mCE0, mW2]
    ∧ send_media_group_notification fW [mW1, mCE0, mW2] 1 "acme leak"
      = (Send.mediaGroupMsg 1
          (item_of (some (content "acme leak")) mW1 ::
            ([mCE0, mW2].filter hasMedia).map (item_of none)),
         !fW (Send.mediaGroupMsg 1
           (item_of (some (content "acme leak")) mW1 ::
             ([mCE0, mW2].filter hasMedia).map (item_of none)))) :=
  ⟨album_send_shape.1 wlW fW [mW1, mCE0, mW2] "G1" mW1 [mCE0, mW2] (by decide),
   album_send_shape.2 fW mW1 [mCE0, mW2] 1 "acme leak" (by decide) (by decide)⟩

theorem sofi_exclusion_witness :
    ("sofi", 7) ∉ found_agencies [("sofi", 7)] (lowerStr (trimStr " go Sofi art "))
    ∧ ("sofi", 7) ∈ found_agencies [("sofi", 7)] (lowerStr (trimStr " go Sofi ")) :=
  ⟨sofi_exclusion.1 [("sofi", 7)] 7 " go Sofi art " (by decide),
   sofi_exclusion.2 [("sofi", 7)] 7 " go Sofi " (by decide) (by decide) (by decide)⟩

theorem notification_text_format_witness :
    sendContent ((Send.textMsg 1 "🚨 Нарушение\n\"Acme did something\"", true) : Send × Bool).1
      = content (trimStr (captionOrText mAcme)) :=
  notification_text_format.2.1 fW wlW mAcme
    (Send.textMsg 1 "🚨 Нарушение\n\"Acme did something\"", true) (by decide)

theorem send_failure_isolated_witness :
    (process_message_sends fT2 wlW mAcme).length
      = (found_agencies wlW (lowerStr (trimStr (captionOrText mAcme)))).length :=
  send_failure_isolated.2.1 fT2 wlW mAcme (by decide)

theorem caption_precedence_witness :
    process_message_sends fW wlW { mBoth with text := some "other" }
      = process_message_sends fW wlW mBoth
    ∧ captionOrText mBoth = pyStr mBoth.caption :=
  ⟨caption_precedence.2.1 fW wlW mBoth (some "other") (by decide),
   caption_precedence.1 mBoth (by decide)⟩

theorem send_priority_witness :
    (send_notification fW mMulti 1 "acme").1
      = Send.photoMsg 1 (mMulti.photo.getLastD "") (content "acme") :=
  send_priority.2.1 fW mMulti 1 "acme" (by decide)
